import Mathlib

/-!
Verification development for the Persona-forge repository.

This file gives a shallow embedding, in Lean 4, of the scheduled
persona-message dispatch subsystem of the repository and of the data model
it operates on, and proves (or refutes) the frozen specification claims
about it.

Embedded source artifacts:
* `src/shared/schema.ts` — the entity shapes (User, Persona, Conversation,
  Message).
* `src/server/storage.ts` — the `MemStorage` implementation of the storage
  gateway (`getUser`, `getConversationByPersona`, `createConversation`,
  `updateConversationLastMessage`, `getMessages`, `createMessage`,
  `updateMessageStatus`).
* `src/unnamed/part_009` — `incrementApiUsage` (an unconditional keyed
  increment of the user's `apiUsage` counter).
* `src/server/routes.ts`, `setupScheduledMessages` — the hourly dispatch
  tick: frequency gate, conversation lookup-or-create, quota gate,
  generation, usage increment, voice synthesis, message append,
  `lastMessageAt` update, conditional WhatsApp relay, per-persona
  try/catch failure isolation.
* `src/server/openai.ts` — `generatePersonaMessage`,
  `buildConversationContext`, `generatePersonalityDescription`,
  `generateFallbackResponse`.

External effects (the OpenAI chat call, the TTS call, the Green API relay,
the database round trip of `incrementApiUsage`) are modelled as oracles:
each call site reads the oracle's value for the persona or user at hand, an
`Except` value whose `.error` case models a rejected promise at that await
point.  JavaScript `Math.random()` is modelled as a stream `Nat → Nat` of
draws, consumed in execution order; a draw used to index a list of length
`n` is taken modulo `n`.  Wall-clock reads (`new Date()`) are modelled by a
single `Tick` value holding the day of week, the hour, and a timestamp,
passed explicitly to the tick.
-/

namespace PersonaForge

/-- Personality trait scores of a persona (`traits` json blob in
`src/shared/schema.ts`, accessed as numbers in `openai.ts`). -/
structure Traits where
  extroversion : Int
  emotional : Int
  playfulness : Int
  adventurous : Int
deriving DecidableEq, Repr

/-- A user row: identity plus quota state (`users` table,
`src/shared/schema.ts`). -/
structure User where
  id : Nat
  apiUsage : Int
  usageLimit : Int
deriving DecidableEq, Repr

/-- A persona row (`personas` table, `src/shared/schema.ts`), restricted to
the fields read by the dispatch subsystem and the content generator. -/
structure Persona where
  id : Nat
  userId : Nat
  name : String
  tagline : String
  interests : List String
  traits : Traits
  isActive : Bool
  messageFrequency : String
  whatsappEnabled : Bool
  whatsappNumber : Option String
deriving DecidableEq, Repr

/-- A conversation row (`conversations` table). -/
structure Conversation where
  id : Nat
  userId : Nat
  personaId : Nat
  lastMessageAt : Nat
  createdAt : Nat
deriving DecidableEq, Repr

/-- A message row (`messages` table).  `voiceUrl` and `voiceDuration` are
nullable columns, `hasVoice` is a non-null boolean. -/
structure Message where
  id : Nat
  conversationId : Nat
  content : String
  isFromPersona : Bool
  deliveryStatus : String
  deliveredVia : String
  hasVoice : Bool
  voiceUrl : Option String
  voiceDuration : Option Int
  sentAt : Nat
deriving DecidableEq, Repr

/-- Insert shape for `createConversation` (conversation id, timestamps
assigned by storage). -/
structure InsertConversation where
  userId : Nat
  personaId : Nat
deriving DecidableEq, Repr

/-- Insert shape for `createMessage`: the optional fields are the ones the
TypeScript `InsertMessage` type leaves optional and `MemStorage.createMessage`
defaults. -/
structure InsertMessage where
  conversationId : Nat
  content : String
  isFromPersona : Option Bool
  deliveryStatus : Option String
  deliveredVia : Option String
  hasVoice : Option Bool
  voiceUrl : Option String
  voiceDuration : Option Int
deriving DecidableEq, Repr

/-- The in-memory storage state of `MemStorage` (`src/server/storage.ts`).
The JavaScript `Map`s iterate in insertion order; each is modelled as a
list in insertion order, keyed by the `id` field. -/
structure MemStorage where
  users : List User
  personas : List Persona
  conversations : List Conversation
  messages : List Message
  conversationCurrentId : Nat
  messageCurrentId : Nat
deriving DecidableEq, Repr

/-- `MemStorage.getUser`: lookup by user id. -/
def getUser (st : MemStorage) (id : Nat) : Option User :=
  st.users.find? (fun u => u.id == id)

/-- `MemStorage.getPersona`: lookup by persona id. -/
def getPersona (st : MemStorage) (id : Nat) : Option Persona :=
  st.personas.find? (fun p => p.id == id)

/-- `MemStorage.getConversationByPersona`: first conversation whose
`personaId` matches. -/
def getConversationByPersona (st : MemStorage) (personaId : Nat) :
    Option Conversation :=
  st.conversations.find? (fun c => c.personaId == personaId)

/-- `MemStorage.createConversation`: assigns `id = conversationCurrentId++`
and sets `lastMessageAt` and `createdAt` to the current time. -/
def createConversation (st : MemStorage) (ic : InsertConversation)
    (now : Nat) : MemStorage × Conversation :=
  let id := st.conversationCurrentId
  let c : Conversation :=
    { id := id, userId := ic.userId, personaId := ic.personaId
      lastMessageAt := now, createdAt := now }
  ({ st with conversations := st.conversations ++ [c]
             conversationCurrentId := id + 1 }, c)

/-- `MemStorage.updateConversationLastMessage`: if the conversation exists,
replace it with a copy whose `lastMessageAt` is the current time. -/
def updateConversationLastMessage (st : MemStorage) (id : Nat) (now : Nat) :
    MemStorage :=
  match st.conversations.find? (fun c => c.id == id) with
  | none => st
  | some _ =>
      { st with conversations :=
          st.conversations.map (fun c =>
            if c.id == id then { c with lastMessageAt := now } else c) }

/-- Stable insertion of a message into a list already sorted by the given
comparison, used to model the stable JavaScript `Array.prototype.sort`. -/
def insertBySentAt (m : Message) : List Message → List Message
  | [] => [m]
  | x :: xs =>
      if x.sentAt ≤ m.sentAt then x :: insertBySentAt m xs
      else m :: x :: xs

/-- Stable sort by ascending `sentAt`, the model of
`.sort((a, b) => a.sentAt.getTime() - b.sentAt.getTime())`. -/
def sortBySentAt : List Message → List Message
  | [] => []
  | x :: xs => insertBySentAt x (sortBySentAt xs)

/-- `MemStorage.getMessages`: all messages of the conversation, sorted
ascending by send timestamp. -/
def getMessages (st : MemStorage) (conversationId : Nat) : List Message :=
  sortBySentAt (st.messages.filter (fun m => m.conversationId == conversationId))

/-- JavaScript `a || d` for an optional string `a`: the default is taken
when the value is absent or falsy (the empty string). -/
def jsOrString (o : Option String) (d : String) : String :=
  match o with
  | none => d
  | some s => if s = "" then d else s

/-- `MemStorage.createMessage`: assigns `id = messageCurrentId++`, applies
the defaults (`deliveryStatus || 'sent'`, `deliveredVia || 'in-app'`,
`isFromPersona ?? false`, `hasVoice ?? false`, `voiceUrl ?? null`,
`voiceDuration ?? null`) and stamps `sentAt` with the current time. -/
def createMessage (st : MemStorage) (im : InsertMessage) (now : Nat) :
    MemStorage × Message :=
  let id := st.messageCurrentId
  let m : Message :=
    { id := id
      conversationId := im.conversationId
      content := im.content
      isFromPersona := im.isFromPersona.getD false
      deliveryStatus := jsOrString im.deliveryStatus "sent"
      deliveredVia := jsOrString im.deliveredVia "in-app"
      hasVoice := im.hasVoice.getD false
      voiceUrl := im.voiceUrl
      voiceDuration := im.voiceDuration
      sentAt := now }
  ({ st with messages := st.messages ++ [m], messageCurrentId := id + 1 }, m)

/-- `MemStorage.updateMessageStatus`: if the message exists, replace it with
a copy whose `deliveryStatus` is the given status.  No other field of the
message — in particular not `deliveredVia` — is changed. -/
def updateMessageStatus (st : MemStorage) (id : Nat) (status : String) :
    MemStorage :=
  match st.messages.find? (fun m => m.id == id) with
  | none => st
  | some _ =>
      { st with messages :=
          st.messages.map (fun m =>
            if m.id == id then { m with deliveryStatus := status } else m) }

/-- `incrementApiUsage` (`src/unnamed/part_009`): unconditional keyed
increment `set apiUsage = apiUsage + 1 where id = userId`. -/
def incrementApiUsage (st : MemStorage) (userId : Nat) : MemStorage :=
  { st with users :=
      st.users.map (fun u =>
        if u.id == userId then { u with apiUsage := u.apiUsage + 1 } else u) }

/-! ## The scheduled dispatch tick (`setupScheduledMessages`, `src/server/routes.ts`) -/

/-- The wall-clock values read by one tick: `getDay()` (0–6, 1 = Monday),
`getHours()` (0–23) and a timestamp used for the storage timestamps. -/
structure Tick where
  day : Nat
  hour : Nat
  time : Nat
deriving DecidableEq, Repr

/-- Voice synthesis result of `generateVoiceMessage` when it succeeds:
a file path and an estimated duration. -/
structure VoiceData where
  filePath : String
  duration : Int
deriving DecidableEq, Repr

/-- Observable external actions of the per-persona pipeline, recorded in
execution order.  `attempted` marks entry into the loop body for a persona;
`genCall` a call to `generatePersonaMessage` (tagged with the owning user);
`msgCreated` the `storage.createMessage` call; `relayCall` a WhatsApp send. -/
inductive Event where
  | attempted (personaId : Nat)
  | genCall (personaId userId : Nat)
  | voiceCall (personaId : Nat)
  | msgCreated (personaId userId messageId : Nat)
  | relayCall (personaId : Nat)
deriving DecidableEq, Repr

/-- Oracles for the awaited external effects of the pipeline, per persona
or user.  An `.error` value models a rejected promise at that await. -/
structure Env where
  gen : Nat → Except String String
  voice : Nat → Except String (Option VoiceData)
  relay : Nat → Except String Bool
  incrUsage : Nat → Except String Unit

/-- The frequency gate at the top of the loop body: `weekly` skips unless
`getDay() == 1` (Monday, any hour); `daily` skips unless `getHours() == 9`;
`never` always skips; any other value (for instance `often`) proceeds. -/
def shouldSkipFrequency (freq : String) (now : Tick) : Bool :=
  if freq = "weekly" then now.day != 1
  else if freq = "daily" then now.hour != 9
  else freq = "never"

/-- A persona is eligible for a proactive message in a tick exactly when the
frequency gate does not skip it. -/
def isEligible (freq : String) (now : Tick) : Bool :=
  !(shouldSkipFrequency freq now)

/-- JavaScript truthiness of the nullable `whatsappNumber` column. -/
def truthyString (o : Option String) : Bool :=
  match o with
  | none => false
  | some s => s != ""

/-- The per-persona pipeline of the loop body after the conversation has
been resolved (steps: user lookup, quota gate, generation, usage increment,
voice synthesis, message append, `lastMessageAt` update, conditional
relay).  `st1` is the storage state after conversation lookup-or-create and
`ev0` the trace so far. -/
def processPersonaPipeline (env : Env) (now : Tick) (p : Persona)
    (st1 : MemStorage) (conversation : Conversation) (ev0 : List Event) :
    Except (MemStorage × List Event × String) (MemStorage × List Event) :=
  match getUser st1 p.userId with
  | none => .ok (st1, ev0)
  | some userData =>
  if userData.usageLimit ≤ userData.apiUsage then .ok (st1, ev0) else
  match env.gen p.id with
  | .error e => .error (st1, ev0 ++ [Event.genCall p.id p.userId], e)
  | .ok messageContent =>
  let ev1 := ev0 ++ [Event.genCall p.id p.userId]
  match env.incrUsage p.userId with
  | .error e => .error (st1, ev1, e)
  | .ok _ =>
  let st2 := incrementApiUsage st1 p.userId
  match env.voice p.id with
  | .error e => .error (st2, ev1 ++ [Event.voiceCall p.id], e)
  | .ok voiceData =>
  let ev2 := ev1 ++ [Event.voiceCall p.id]
  let stMsg := createMessage st2
    { conversationId := conversation.id
      content := messageContent
      isFromPersona := some true
      deliveryStatus := some "sent"
      deliveredVia := some "in-app"
      hasVoice := some voiceData.isSome
      voiceUrl := voiceData.map VoiceData.filePath
      voiceDuration := voiceData.map VoiceData.duration } now.time
  let st3 := stMsg.1
  let message := stMsg.2
  let ev3 := ev2 ++ [Event.msgCreated p.id p.userId message.id]
  let st4 := updateConversationLastMessage st3 conversation.id now.time
  if p.whatsappEnabled && truthyString p.whatsappNumber then
    match env.relay p.id with
    | .error e => .error (st4, ev3 ++ [Event.relayCall p.id], e)
    | .ok whatsappSent =>
      let ev4 := ev3 ++ [Event.relayCall p.id]
      if whatsappSent then .ok (updateMessageStatus st4 message.id "delivered", ev4)
      else .ok (st4, ev4)
  else .ok (st4, ev3)

/-- One iteration of the `for (const persona of activePersonas)` loop body
of `setupScheduledMessages`, without its `try/catch`: the frequency gate,
then conversation lookup-or-create, then the rest of the pipeline.  `.ok`
is normal completion, `.error` a thrown/rejected pipeline; both carry the
storage state and the event trace at that point, since side effects
performed before a throw persist. -/
def processPersona (env : Env) (now : Tick) (st0 : MemStorage) (p : Persona) :
    Except (MemStorage × List Event × String) (MemStorage × List Event) :=
  let ev0 : List Event := [Event.attempted p.id]
  if shouldSkipFrequency p.messageFrequency now then .ok (st0, ev0) else
  let stConv :=
    match getConversationByPersona st0 p.id with
    | some c => (st0, c)
    | none => createConversation st0 { userId := p.userId, personaId := p.id } now.time
  processPersonaPipeline env now p stConv.1 stConv.2 ev0

/-- The `try { ... } catch (personaError) { /- continue -/ }` wrapper around
the loop body: on a throw the state and trace at the throw point are kept
and the loop moves on to the next persona. -/
def tickStep (env : Env) (now : Tick) (acc : MemStorage × List Event)
    (p : Persona) : MemStorage × List Event :=
  match processPersona env now acc.1 p with
  | .ok (st, ev) => (st, acc.2 ++ ev)
  | .error (st, ev, _) => (st, acc.2 ++ ev)

/-- One full dispatch tick over the given list of active personas. -/
def runTick (env : Env) (now : Tick) (st : MemStorage)
    (personas : List Persona) : MemStorage × List Event :=
  personas.foldl (tickStep env now) (st, [])

/-! ## Content generation (`src/server/openai.ts`) -/

/-- JavaScript `String.prototype.includes` on character lists: some suffix
of `s` has `sub` as a prefix. -/
def listIncludes (s sub : List Char) : Bool :=
  if sub.isPrefixOf s then true
  else
    match s with
    | [] => false
    | _ :: t => listIncludes t sub

/-- JavaScript `s.includes(sub)`. -/
def jsIncludes (s sub : String) : Bool :=
  listIncludes s.data sub.data

/-- JavaScript `s.toLowerCase()` (ASCII). -/
def jsToLower (s : String) : String :=
  String.mk (s.data.map Char.toLower)

/-- Whitespace for the `/\s+/` split. -/
def isWsChar (c : Char) : Bool :=
  c = ' ' || c = '\t' || c = '\n' || c = '\r'

/-- Worker for `jsSplitWs`: `skipping` is true while inside a whitespace
run whose piece has already been emitted, `acc` holds the current piece
reversed. -/
def jsSplitWsCore : List Char → Bool → List Char → List String
  | [], _, acc => [String.mk acc.reverse]
  | c :: rest, skipping, acc =>
      if isWsChar c then
        if skipping then jsSplitWsCore rest true acc
        else String.mk acc.reverse :: jsSplitWsCore rest true []
      else jsSplitWsCore rest false (c :: acc)

/-- JavaScript `s.split(/\s+/)`: splits on runs of whitespace; the empty
string yields `[""]`, and leading or trailing whitespace yields empty
pieces, as in JavaScript. -/
def jsSplitWs (s : String) : List String :=
  jsSplitWsCore s.data false []

/-- `Math.floor(Math.random() * len)`: the `k`-th draw of the stream,
reduced to a valid index of a list of length `len`. -/
def jsPickIdx (rand : Nat → Nat) (k len : Nat) : Nat :=
  if len = 0 then 0 else rand k % len

/-- JavaScript indexing `l[i]`; out-of-range access interpolates as the
string `undefined`. -/
def jsAt (l : List String) (i : Nat) : String :=
  l.getD i "undefined"

/-- The `interestResponses` record literal of `generateFallbackResponse`:
five canned templates for each of eight known interest tags. -/
def interestResponses (interest : String) : Option (List String) :=
  if interest = "Technology" then some
    ["I've been reading about the latest tech trends. Have you tried any new gadgets recently?",
     "Technology is evolving so quickly! What tech are you most excited about these days?",
     "I'm fascinated by AI advancements. What tech innovations do you think will have the biggest impact in the next few years?",
     "I just read an article about quantum computing breakthroughs. The potential applications are mind-blowing!",
     "Have you noticed how technology is changing how we interact with each other? I find it both fascinating and a bit concerning."]
  else if interest = "Gadgets" then some
    ["I've been thinking about upgrading my devices. Any recommendations?",
     "Did you see the latest smartphone release? The features look incredible!",
     "I love testing new gadgets. What's your favorite tech purchase from the last year?",
     "Smart home devices have really improved lately. Have you integrated any into your living space?",
     "Wearable tech keeps getting more advanced. Are you using any fitness trackers or smartwatches?"]
  else if interest = "Programming" then some
    ["Been working on any interesting coding projects lately?",
     "I've been diving into some new programming languages. Have you learned any new tech skills recently?",
     "The developer community is so innovative. What programming trends are you following these days?",
     "Open source projects have really changed the software landscape. Any favorites you contribute to?",
     "What do you think about low-code platforms? Are they the future or just another tool in the toolkit?"]
  else if interest = "AI" then some
    ["AI is changing everything so rapidly. What applications of AI do you find most interesting?",
     "I've been reading about some fascinating AI research papers. Are you interested in how AI is evolving?",
     "The possibilities with AI seem endless. What do you think about how it's being used today?",
     "Generative AI models have gotten remarkably good. What creative applications have you seen that impressed you?",
     "The intersection of AI and healthcare seems promising. Do you follow any developments in that space?"]
  else if interest = "Cooking" then some
    ["I tried a new recipe yesterday! Do you enjoy cooking?",
     "Food brings people together. What's your favorite cuisine to cook at home?",
     "I've been experimenting in the kitchen lately. Have you discovered any new favorite recipes?",
     "There's something so therapeutic about cooking. Do you find it relaxing too?",
     "I'm trying to learn more sustainable cooking practices. Have you explored any eco-friendly cooking methods?"]
  else if interest = "Restaurants" then some
    ["Have you discovered any great new restaurants lately?",
     "I'm always looking for new dining spots. Any recommendations?",
     "There's nothing like a great dining experience. What type of restaurants do you enjoy most?",
     "Farm-to-table restaurants have really grown in popularity. Have you been to any?",
     "I'm fascinated by how restaurants design their menus. Have you noticed how they highlight certain dishes?"]
  else if interest = "Food Culture" then some
    ["Every culture has such fascinating food traditions. Have you explored any new cuisines recently?",
     "Food tells us so much about history and culture. What food traditions are you most interested in?",
     "I find food documentaries so fascinating. Have you watched any good ones about food culture?",
     "Street food is such an authentic way to experience a culture. Do you seek out street food when traveling?",
     "The way spices are used across different cultures tells such rich stories. Any favorite spice combinations?"]
  else if interest = "Wine" then some
    ["I've been learning more about wine pairings. Do you have any favorite wines?",
     "Wine tasting is such an adventure for the senses. Have you visited any vineyards?",
     "There's something special about finding the perfect wine for a meal. Are you interested in wine culture?",
     "Natural wines are becoming more popular. Have you tried any that you enjoyed?",
     "Each wine region has such a distinct character. Do you have a favorite wine-producing region?"]
  else none

/-- The `genericResponses` array of `generateFallbackResponse`. -/
def genericResponses : List String :=
  ["That's interesting! Tell me more about your thoughts on that.",
   "I'd love to hear more about your perspective on this topic.",
   "That's a great point! What else have you been thinking about lately?",
   "I find that fascinating. How did you become interested in this?",
   "Thanks for sharing that with me. What other interests do you have?",
   "I'm curious to learn more about that. Could you elaborate?",
   "That's a perspective I hadn't considered before. What led you to that conclusion?",
   "I appreciate you sharing your thoughts. What else is on your mind today?",
   "Tell me more about why you feel that way. I'm genuinely interested.",
   "That's really thoughtful. Have you always been interested in topics like this?"]

/-- The tail of `generateFallbackResponse`: the loop over `interests`
returning a random predefined response for the first interest that has
them, else a random generic response.  `k` is the number of random draws
already consumed on the current execution path. -/
def fallbackTail (persona : Persona) (rand : Nat → Nat) (k : Nat) : String :=
  match persona.interests.findSome? (fun interest =>
      match interestResponses interest with
      | some responses => if 0 < responses.length then some responses else none
      | none => none) with
  | some responses => jsAt responses (jsPickIdx rand k responses.length)
  | none => jsAt genericResponses (jsPickIdx rand k genericResponses.length)

/-- `generateFallbackResponse(persona, userMessage)` from
`src/server/openai.ts`, with the `Math.random()` stream passed explicitly
as `rand` (draws consumed in execution order). -/
def generateFallbackResponse (persona : Persona) (userMessage : String)
    (rand : Nat → Nat) : String :=
  let interests := persona.interests
  let userMessageLower := jsToLower userMessage
  if jsIncludes userMessageLower "hello" || jsIncludes userMessageLower "hi" ||
     jsIncludes userMessageLower "hey" then
    "Hi there! Great to chat with you. I'm " ++ persona.name ++
      ", and I'm really into " ++ String.intercalate ", " interests ++
      ". How are you doing today?"
  else if jsIncludes userMessageLower "how are you" then
    "I'm doing great, thanks for asking! I was just thinking about " ++
      jsAt interests (jsPickIdx rand 0 interests.length) ++
      " actually. What about you?"
  else
    let tellMatch :=
      if jsIncludes userMessageLower "tell me about" ||
         jsIncludes userMessageLower "what do you think about" then
        interests.find? (fun interest =>
          jsIncludes userMessageLower (jsToLower interest))
      else none
    match tellMatch with
    | some interest =>
        "I'd love to talk about " ++ interest ++
          "! It's one of my favorite subjects. What specific aspects of " ++
          interest ++ " are you interested in?"
    | none =>
        let messageWords := jsSplitWs userMessageLower
        let possibleMatches := interests.filter (fun interest =>
          messageWords.any (fun word =>
            jsIncludes word (jsToLower interest) ||
            jsIncludes (jsToLower interest) word))
        if 0 < possibleMatches.length then
          let matchedInterest :=
            jsAt possibleMatches (jsPickIdx rand 0 possibleMatches.length)
          match interestResponses matchedInterest with
          | some responses => jsAt responses (jsPickIdx rand 1 responses.length)
          | none => fallbackTail persona rand 1
        else fallbackTail persona rand 0

/-- `generatePersonalityDescription` from `src/server/openai.ts`: one
phrase per trait, joined with a comma. -/
def generatePersonalityDescription (persona : Persona) : String :=
  let traits := persona.traits
  let d1 :=
    if 7 < traits.extroversion then "very outgoing and extroverted"
    else if 5 < traits.extroversion then "moderately social"
    else "more introverted and reserved"
  let d2 :=
    if 7 < traits.emotional then "highly emotional and empathetic"
    else if 5 < traits.emotional then "balanced between emotional and analytical"
    else "logical and analytical"
  let d3 :=
    if 7 < traits.playfulness then "very playful and fun-loving"
    else if 5 < traits.playfulness then "moderately playful"
    else "serious and straightforward"
  let d4 :=
    if 7 < traits.adventurous then "highly adventurous and risk-taking"
    else if 5 < traits.adventurous then "moderately adventurous"
    else "cautious and careful"
  String.intercalate ", " [d1, d2, d3, d4]

/-- One entry of the chat history sent to the model. -/
structure MessageHistory where
  role : String
  content : String
deriving DecidableEq, Repr

/-- `buildConversationContext` from `src/server/openai.ts`: throws when the
persona or its conversation is missing; otherwise the system prompt
followed by the conversation history. -/
def buildConversationContext (st : MemStorage) (personaId : Nat) :
    Except String (List MessageHistory) :=
  match getPersona st personaId with
  | none => .error "Persona not found"
  | some persona =>
  match getConversationByPersona st personaId with
  | none => .error "Conversation not found"
  | some conversation =>
    let messages := getMessages st conversation.id
    let systemContent :=
      "You are " ++ persona.name ++
      ", an AI persona with the following personality traits: " ++
      generatePersonalityDescription persona ++ ". \n    Your tagline is: \"" ++
      persona.tagline ++ "\"\n    Your primary interests are: " ++
      String.intercalate ", " persona.interests ++
      "\n    \n    Guidelines for your responses:\n    1. Stay completely in character and respond as " ++
      persona.name ++
      " would, reflecting your personality traits\n    2. Make your responses highly relevant to the user's messages and their content\n    3. Show genuine interest in what the user says and ask engaging follow-up questions\n    4. Share insights, opinions, and information related to your interests when relevant\n    5. Maintain a friendly, conversational tone that matches your personality traits\n    6. Keep responses concise (1-3 sentences) and natural sounding\n    \n    History context: You are in an ongoing conversation with a human friend who enjoys talking with you.\n    If the conversation references previous messages not visible here, blend smoothly into that context."
    .ok ({ role := "system", content := systemContent } ::
      messages.map (fun m =>
        { role := if m.isFromPersona then "assistant" else "user"
          content := m.content }))

/-- An error thrown by the OpenAI client: HTTP status and optional error
code, the two fields `generatePersonaMessage` inspects. -/
structure ApiError where
  status : Nat
  code : Option String
deriving DecidableEq, Repr

/-- The `!process.env.OPENAI_API_KEY || OPENAI_API_KEY ===
'dummy-key-for-development'` guard. -/
def keyMissing (apiKey : Option String) : Bool :=
  match apiKey with
  | none => true
  | some k => k = "" || k = "dummy-key-for-development"

/-- The body of `generatePersonaMessage` without its outermost
`try/catch`: `.error` marks an exception propagating to that catch.
`modelResult` is the oracle for the `openai.chat.completions.create` call
(its `.ok` value is `response.choices[0].message.content`, which may be
absent). -/
def generatePersonaMessageBody (st : MemStorage) (apiKey : Option String)
    (modelResult : Except ApiError (Option String)) (rand : Nat → Nat)
    (personaId : Nat) : Except String String :=
  match getPersona st personaId with
  | none => .error "Persona not found"
  | some persona =>
  if keyMissing apiKey then .ok (generateFallbackResponse persona "" rand)
  else
    match buildConversationContext st personaId with
    | .error e => .error e
    | .ok _messageHistory =>
      match modelResult with
      | .ok content => .ok (jsOrString content "Hey, how's it going?")
      | .error apiError =>
          if apiError.status == 429 || apiError.code == some "insufficient_quota" then
            .ok (generateFallbackResponse persona "" rand)
          else .error "OpenAI API error"

/-- `generatePersonaMessage` from `src/server/openai.ts` as the caller
observes it: the outermost `catch` turns every thrown error into the
canned apology text, so the async function always resolves (`.ok`). -/
def generatePersonaMessage (st : MemStorage) (apiKey : Option String)
    (modelResult : Except ApiError (Option String)) (rand : Nat → Nat)
    (personaId : Nat) : Except String String :=
  match generatePersonaMessageBody st apiKey modelResult rand personaId with
  | .ok s => .ok s
  | .error _ => .ok "I'm having trouble connecting right now. Let's chat later!"

/-! ## Helper definitions and lemmas -/

/-- The storage state an observer sees after the loop body for one persona,
whether it completed (`.ok`) or threw (`.error`): effects performed before
a throw persist. -/
def stateOf (r : Except (MemStorage × List Event × String) (MemStorage × List Event)) :
    MemStorage :=
  match r with
  | .ok x => x.1
  | .error x => x.1

/-- The event trace of the loop body for one persona, whether it completed
or threw. -/
def eventsOf (r : Except (MemStorage × List Event × String) (MemStorage × List Event)) :
    List Event :=
  match r with
  | .ok x => x.2
  | .error x => x.2.1

theorem tickStep_eq (env : Env) (now : Tick) (acc : MemStorage × List Event)
    (p : Persona) :
    tickStep env now acc p =
      (stateOf (processPersona env now acc.1 p),
       acc.2 ++ eventsOf (processPersona env now acc.1 p)) := by
  unfold tickStep
  cases h : processPersona env now acc.1 p with
  | ok x => simp [stateOf, eventsOf]
  | error x => simp [stateOf, eventsOf]

theorem getUser_congr (st' st : MemStorage) (v : Nat)
    (h : st'.users = st.users) : getUser st' v = getUser st v := by
  unfold getUser; rw [h]

theorem users_createMessage (st : MemStorage) (im : InsertMessage) (t : Nat) :
    (createMessage st im t).1.users = st.users := rfl

theorem users_createConversation (st : MemStorage) (ic : InsertConversation)
    (t : Nat) : (createConversation st ic t).1.users = st.users := rfl

theorem users_updateConversationLastMessage (st : MemStorage) (i t : Nat) :
    (updateConversationLastMessage st i t).users = st.users := by
  unfold updateConversationLastMessage; split <;> rfl

theorem users_updateMessageStatus (st : MemStorage) (i : Nat) (s : String) :
    (updateMessageStatus st i s).users = st.users := by
  unfold updateMessageStatus; split <;> rfl

theorem insertBySentAt_perm (m : Message) (l : List Message) :
    (insertBySentAt m l).Perm (m :: l) := by
  induction l with
  | nil => simp [insertBySentAt]
  | cons x xs ih =>
      simp only [insertBySentAt]
      split
      · exact (ih.cons x).trans (List.Perm.swap m x xs)
      · exact List.Perm.refl _

theorem insertBySentAt_sorted (m : Message) (l : List Message)
    (h : l.Pairwise (fun a b => a.sentAt ≤ b.sentAt)) :
    (insertBySentAt m l).Pairwise (fun a b => a.sentAt ≤ b.sentAt) := by
  induction l with
  | nil => simp [insertBySentAt]
  | cons x xs ih =>
      rcases List.pairwise_cons.1 h with ⟨hx, hxs⟩
      simp only [insertBySentAt]
      split
      · rename_i hle
        refine List.pairwise_cons.2 ⟨?_, ih hxs⟩
        intro b hb
        rcases List.mem_cons.1 ((insertBySentAt_perm m xs).mem_iff.1 hb) with hbm | hbx
        · exact hbm ▸ hle
        · exact hx b hbx
      · rename_i hnle
        refine List.pairwise_cons.2 ⟨?_, h⟩
        intro b hb
        have hmx : m.sentAt ≤ x.sentAt := Nat.le_of_not_le hnle
        rcases List.mem_cons.1 hb with hbx | hbxs
        · exact hbx ▸ hmx
        · exact Nat.le_trans hmx (hx b hbxs)

theorem sortBySentAt_perm (l : List Message) : (sortBySentAt l).Perm l := by
  induction l with
  | nil => simp [sortBySentAt]
  | cons x xs ih =>
      exact (insertBySentAt_perm x (sortBySentAt xs)).trans (ih.cons x)

theorem sortBySentAt_sorted (l : List Message) :
    (sortBySentAt l).Pairwise (fun a b => a.sentAt ≤ b.sentAt) := by
  induction l with
  | nil => simp [sortBySentAt]
  | cons x xs ih => exact insertBySentAt_sorted x _ ih

/-- Core equality of messages: all fields agree except possibly
`deliveryStatus`, the one field the dispatch pipeline may escalate after
creation. -/
def coreEq (m m' : Message) : Prop :=
  m'.id = m.id ∧ m'.conversationId = m.conversationId ∧
  m'.content = m.content ∧ m'.isFromPersona = m.isFromPersona ∧
  m'.deliveredVia = m.deliveredVia ∧ m'.hasVoice = m.hasVoice ∧
  m'.voiceUrl = m.voiceUrl ∧ m'.voiceDuration = m.voiceDuration ∧
  m'.sentAt = m.sentAt

theorem coreEq_refl (m : Message) : coreEq m m :=
  ⟨rfl, rfl, rfl, rfl, rfl, rfl, rfl, rfl, rfl⟩

theorem coreEq_trans {a b c : Message} (h1 : coreEq a b) (h2 : coreEq b c) :
    coreEq a c := by
  obtain ⟨e1, e2, e3, e4, e5, e6, e7, e8, e9⟩ := h1
  obtain ⟨f1, f2, f3, f4, f5, f6, f7, f8, f9⟩ := h2
  exact ⟨f1.trans e1, f2.trans e2, f3.trans e3, f4.trans e4, f5.trans e5,
    f6.trans e6, f7.trans e7, f8.trans e8, f9.trans e9⟩

/-- Persistence of observable side effects across further processing within
a tick whose storage timestamps are written with time `t`: every message
survives up to `coreEq` (only its status may change), every user survives
with the same limit and a non-decreased usage counter, every conversation
survives with the same binding and either its old `lastMessageAt` or the
tick's. -/
def persists (t : Nat) (st st' : MemStorage) : Prop :=
  (∀ m ∈ st.messages, ∃ m' ∈ st'.messages, coreEq m m') ∧
  (∀ u ∈ st.users, ∃ u' ∈ st'.users, u'.id = u.id ∧ u.apiUsage ≤ u'.apiUsage ∧
    u'.usageLimit = u.usageLimit) ∧
  (∀ c ∈ st.conversations, ∃ c' ∈ st'.conversations, c'.id = c.id ∧
    c'.personaId = c.personaId ∧ c'.userId = c.userId ∧
    (c'.lastMessageAt = c.lastMessageAt ∨ c'.lastMessageAt = t))

theorem persists_refl (t : Nat) (st : MemStorage) : persists t st st :=
  ⟨fun m hm => ⟨m, hm, coreEq_refl m⟩,
   fun u hu => ⟨u, hu, rfl, le_refl _, rfl⟩,
   fun c hc => ⟨c, hc, rfl, rfl, rfl, Or.inl rfl⟩⟩

theorem persists_trans {t : Nat} {s1 s2 s3 : MemStorage}
    (h1 : persists t s1 s2) (h2 : persists t s2 s3) : persists t s1 s3 := by
  obtain ⟨hm1, hu1, hc1⟩ := h1
  obtain ⟨hm2, hu2, hc2⟩ := h2
  refine ⟨?_, ?_, ?_⟩
  · intro m hm
    obtain ⟨m', hm', he⟩ := hm1 m hm
    obtain ⟨m'', hm'', he'⟩ := hm2 m' hm'
    exact ⟨m'', hm'', coreEq_trans he he'⟩
  · intro u hu
    obtain ⟨u', hu', hid, hle, hlim⟩ := hu1 u hu
    obtain ⟨u'', hu'', hid', hle', hlim'⟩ := hu2 u' hu'
    exact ⟨u'', hu'', hid'.trans hid, hle.trans hle', hlim'.trans hlim⟩
  · intro c hc
    obtain ⟨c', hc', hid, hpid, huid, hlm⟩ := hc1 c hc
    obtain ⟨c'', hc'', hid', hpid', huid', hlm'⟩ := hc2 c' hc'
    refine ⟨c'', hc'', hid'.trans hid, hpid'.trans hpid, huid'.trans huid, ?_⟩
    rcases hlm' with h | h
    · rcases hlm with h' | h'
      · exact Or.inl (h.trans h')
      · exact Or.inr (h.trans h')
    · exact Or.inr h

theorem persists_createConversation (t : Nat) (st : MemStorage)
    (ic : InsertConversation) (t' : Nat) :
    persists t st (createConversation st ic t').1 := by
  refine ⟨?_, ?_, ?_⟩
  · intro m hm; exact ⟨m, hm, coreEq_refl m⟩
  · intro u hu; exact ⟨u, hu, rfl, le_refl _, rfl⟩
  · intro c hc
    exact ⟨c, List.mem_append_left _ hc, rfl, rfl, rfl, Or.inl rfl⟩

theorem persists_incrementApiUsage (t : Nat) (st : MemStorage) (uid : Nat) :
    persists t st (incrementApiUsage st uid) := by
  refine ⟨?_, ?_, ?_⟩
  · intro m hm; exact ⟨m, hm, coreEq_refl m⟩
  · intro u hu
    by_cases h : u.id = uid
    · refine ⟨{ u with apiUsage := u.apiUsage + 1 }, ?_, rfl, ?_, rfl⟩
      · have := List.mem_map_of_mem
          (f := fun v => if v.id == uid then { v with apiUsage := v.apiUsage + 1 } else v) hu
        simpa [incrementApiUsage, h] using this
      · exact Int.le_of_lt (Int.lt_succ _)
    · refine ⟨u, ?_, rfl, le_refl _, rfl⟩
      have := List.mem_map_of_mem
        (f := fun v => if v.id == uid then { v with apiUsage := v.apiUsage + 1 } else v) hu
      simpa [incrementApiUsage, h] using this
  · intro c hc; exact ⟨c, hc, rfl, rfl, rfl, Or.inl rfl⟩

theorem persists_createMessage (t : Nat) (st : MemStorage)
    (im : InsertMessage) (t' : Nat) :
    persists t st (createMessage st im t').1 := by
  refine ⟨?_, ?_, ?_⟩
  · intro m hm; exact ⟨m, List.mem_append_left _ hm, coreEq_refl m⟩
  · intro u hu; exact ⟨u, hu, rfl, le_refl _, rfl⟩
  · intro c hc; exact ⟨c, hc, rfl, rfl, rfl, Or.inl rfl⟩

theorem persists_updateConversationLastMessage (t : Nat) (st : MemStorage)
    (cid : Nat) :
    persists t st (updateConversationLastMessage st cid t) := by
  unfold updateConversationLastMessage
  cases hfind : st.conversations.find? (fun c => c.id == cid) with
  | none => exact persists_refl t st
  | some c0 =>
      refine ⟨?_, ?_, ?_⟩
      · intro m hm; exact ⟨m, hm, coreEq_refl m⟩
      · intro u hu; exact ⟨u, hu, rfl, le_refl _, rfl⟩
      · intro c hc
        by_cases h : c.id = cid
        · refine ⟨{ c with lastMessageAt := t }, ?_, rfl, rfl, rfl, Or.inr rfl⟩
          have := List.mem_map_of_mem
            (f := fun d => if d.id == cid then { d with lastMessageAt := t } else d) hc
          simpa [h] using this
        · refine ⟨c, ?_, rfl, rfl, rfl, Or.inl rfl⟩
          have := List.mem_map_of_mem
            (f := fun d => if d.id == cid then { d with lastMessageAt := t } else d) hc
          simpa [h] using this

theorem persists_updateMessageStatus (t : Nat) (st : MemStorage)
    (mid : Nat) (status : String) :
    persists t st (updateMessageStatus st mid status) := by
  unfold updateMessageStatus
  cases hfind : st.messages.find? (fun m => m.id == mid) with
  | none => exact persists_refl t st
  | some m0 =>
      refine ⟨?_, ?_, ?_⟩
      · intro m hm
        by_cases h : m.id = mid
        · refine ⟨{ m with deliveryStatus := status }, ?_, ?_⟩
          · have := List.mem_map_of_mem
              (f := fun d => if d.id == mid then { d with deliveryStatus := status } else d) hm
            simpa [h] using this
          · exact ⟨rfl, rfl, rfl, rfl, rfl, rfl, rfl, rfl, rfl⟩
        · refine ⟨m, ?_, coreEq_refl m⟩
          have := List.mem_map_of_mem
            (f := fun d => if d.id == mid then { d with deliveryStatus := status } else d) hm
          simpa [h] using this
      · intro u hu; exact ⟨u, hu, rfl, le_refl _, rfl⟩
      · intro c hc; exact ⟨c, hc, rfl, rfl, rfl, Or.inl rfl⟩

/-- Which persona an event belongs to: every event a pipeline run for `p`
emits names `p`'s id, and its user-tagged events name `p`'s owner. -/
def eventOwner (p : Persona) : Event → Prop
  | .attempted i => i = p.id
  | .genCall i u => i = p.id ∧ u = p.userId
  | .voiceCall i => i = p.id
  | .msgCreated i u _ => i = p.id ∧ u = p.userId
  | .relayCall i => i = p.id

theorem ownerSingle {p : Persona} {a : Event} (h : eventOwner p a) :
    ∀ e ∈ [a], eventOwner p e := by
  intro e he
  rcases List.mem_singleton.1 he with rfl
  exact h

theorem ownerExtend {p : Persona} {ev0 l tl : List Event}
    (h1 : ∀ e ∈ l, e ∈ ev0 ∨ eventOwner p e)
    (h2 : ∀ e ∈ tl, eventOwner p e) :
    ∀ e ∈ l ++ tl, e ∈ ev0 ∨ eventOwner p e := by
  intro e he
  rcases List.mem_append.1 he with h | h
  · exact h1 e h
  · exact Or.inr (h2 e h)

theorem processPersonaPipeline_master (env : Env) (now : Tick) (p : Persona)
    (st1 : MemStorage) (conv : Conversation) (ev0 : List Event) :
    (∀ e ∈ ev0, e ∈ eventsOf (processPersonaPipeline env now p st1 conv ev0)) ∧
    (∀ e ∈ eventsOf (processPersonaPipeline env now p st1 conv ev0),
      e ∈ ev0 ∨ eventOwner p e) ∧
    ((stateOf (processPersonaPipeline env now p st1 conv ev0)).users = st1.users ∨
     (stateOf (processPersonaPipeline env now p st1 conv ev0)).users =
       (incrementApiUsage st1 p.userId).users) ∧
    persists now.time st1 (stateOf (processPersonaPipeline env now p st1 conv ev0)) := by
  unfold processPersonaPipeline
  cases hget : getUser st1 p.userId with
  | none =>
      exact ⟨fun e he => he, fun e he => Or.inl he, Or.inl rfl, persists_refl _ _⟩
  | some userData =>
  dsimp only
  by_cases hq : userData.usageLimit ≤ userData.apiUsage
  · rw [if_pos hq]
    exact ⟨fun e he => he, fun e he => Or.inl he, Or.inl rfl, persists_refl _ _⟩
  · rw [if_neg hq]
    cases hgen : env.gen p.id with
    | error e =>
        exact ⟨fun ev hev => List.mem_append_left _ hev,
          ownerExtend (fun ev hev => Or.inl hev) (ownerSingle ⟨rfl, rfl⟩),
          Or.inl rfl, persists_refl _ _⟩
    | ok messageContent =>
    dsimp only
    cases hincr : env.incrUsage p.userId with
    | error e =>
        exact ⟨fun ev hev => List.mem_append_left _ hev,
          ownerExtend (fun ev hev => Or.inl hev) (ownerSingle ⟨rfl, rfl⟩),
          Or.inl rfl, persists_refl _ _⟩
    | ok u =>
    dsimp only
    cases hvoice : env.voice p.id with
    | error e =>
        exact ⟨fun ev hev => List.mem_append_left _ (List.mem_append_left _ hev),
          ownerExtend (ownerExtend (fun ev hev => Or.inl hev) (ownerSingle ⟨rfl, rfl⟩))
            (ownerSingle rfl),
          Or.inr rfl, persists_incrementApiUsage _ _ _⟩
    | ok voiceData =>
    dsimp only
    by_cases hwa : (p.whatsappEnabled && truthyString p.whatsappNumber) = true
    · rw [if_pos hwa]
      cases hrelay : env.relay p.id with
      | error e =>
          refine ⟨fun ev hev => List.mem_append_left _ (List.mem_append_left _
              (List.mem_append_left _ (List.mem_append_left _ hev))),
            ownerExtend (ownerExtend (ownerExtend (ownerExtend
              (fun ev hev => Or.inl hev) (ownerSingle ⟨rfl, rfl⟩)) (ownerSingle rfl))
              (ownerSingle ⟨rfl, rfl⟩)) (ownerSingle rfl),
            Or.inr ?_, ?_⟩
          · simp [stateOf, users_updateConversationLastMessage, users_createMessage]
          · exact persists_trans (persists_incrementApiUsage _ _ _)
              (persists_trans (persists_createMessage _ _ _ _)
                (persists_updateConversationLastMessage _ _ _))
      | ok whatsappSent =>
          dsimp only
          cases whatsappSent with
          | true =>
              rw [if_pos rfl]
              refine ⟨fun ev hev => List.mem_append_left _ (List.mem_append_left _
                  (List.mem_append_left _ (List.mem_append_left _ hev))),
                ownerExtend (ownerExtend (ownerExtend (ownerExtend
                  (fun ev hev => Or.inl hev) (ownerSingle ⟨rfl, rfl⟩)) (ownerSingle rfl))
                  (ownerSingle ⟨rfl, rfl⟩)) (ownerSingle rfl),
                Or.inr ?_, ?_⟩
              · simp [stateOf, users_updateMessageStatus, users_updateConversationLastMessage, users_createMessage]
              · exact persists_trans (persists_incrementApiUsage _ _ _)
                  (persists_trans (persists_createMessage _ _ _ _)
                    (persists_trans (persists_updateConversationLastMessage _ _ _)
                      (persists_updateMessageStatus _ _ _ _)))
          | false =>
              rw [if_neg (by simp)]
              refine ⟨fun ev hev => List.mem_append_left _ (List.mem_append_left _
                  (List.mem_append_left _ (List.mem_append_left _ hev))),
                ownerExtend (ownerExtend (ownerExtend (ownerExtend
                  (fun ev hev => Or.inl hev) (ownerSingle ⟨rfl, rfl⟩)) (ownerSingle rfl))
                  (ownerSingle ⟨rfl, rfl⟩)) (ownerSingle rfl),
                Or.inr ?_, ?_⟩
              · simp [stateOf, users_updateConversationLastMessage, users_createMessage]
              · exact persists_trans (persists_incrementApiUsage _ _ _)
                  (persists_trans (persists_createMessage _ _ _ _)
                    (persists_updateConversationLastMessage _ _ _))
    · rw [if_neg hwa]
      refine ⟨fun ev hev => List.mem_append_left _ (List.mem_append_left _
          (List.mem_append_left _ hev)),
        ownerExtend (ownerExtend (ownerExtend
          (fun ev hev => Or.inl hev) (ownerSingle ⟨rfl, rfl⟩)) (ownerSingle rfl))
          (ownerSingle ⟨rfl, rfl⟩),
        Or.inr ?_, ?_⟩
      · simp [stateOf, users_updateConversationLastMessage, users_createMessage]
      · exact persists_trans (persists_incrementApiUsage _ _ _)
          (persists_trans (persists_createMessage _ _ _ _)
            (persists_updateConversationLastMessage _ _ _))

/-! ## Claim theorems -/

/-- Claim C4: a persona with frequency `never` is never eligible, one with
`often` is eligible on every tick, and `daily` is eligible exactly when the
tick hour is 9 (hence eligible at hour 9, not at hour 14). -/
theorem never_often_daily_eligibility (now : Tick) :
    isEligible "never" now = false ∧ isEligible "often" now = true ∧
    (isEligible "daily" now = true ↔ now.hour = 9) := by
  refine ⟨?_, ?_, ?_⟩ <;> simp [isEligible, shouldSkipFrequency]

/-- Fixtures for concrete runs of the tick. -/
def weeklyPersona : Persona :=
  { id := 2, userId := 20, name := "Wes", tagline := "w", interests := [],
    traits := ⟨5, 5, 5, 5⟩, isActive := true, messageFrequency := "weekly",
    whatsappEnabled := false, whatsappNumber := none }

def weeklyUser : User := { id := 20, apiUsage := 0, usageLimit := 100 }

def weeklyStore : MemStorage :=
  { users := [weeklyUser], personas := [weeklyPersona], conversations := [],
    messages := [], conversationCurrentId := 1, messageCurrentId := 1 }

def plainEnv : Env :=
  { gen := fun _ => .ok "hi friend", voice := fun _ => .ok none,
    relay := fun _ => .ok false, incrUsage := fun _ => .ok () }

/-- Claim C3 counterexample: on Monday (`getDay() = 1`) at 14:00 a `weekly`
persona is eligible and its pipeline runs to completion, appending a
message — the code gates `weekly` on the weekday only, never on the hour,
contradicting the claimed "Monday AND 09:00" eligibility. -/
theorem weekly_hour_gate_cex :
    isEligible "weekly" { day := 1, hour := 14, time := 0 } = true ∧
    (processPersona plainEnv { day := 1, hour := 14, time := 0 }
        weeklyStore weeklyPersona).isOk = true ∧
    (stateOf (processPersona plainEnv { day := 1, hour := 14, time := 0 }
        weeklyStore weeklyPersona)).messages.length = 1 := by
  decide

/-- Claim C3 (amended): a `weekly` persona is eligible in a tick exactly
when the tick falls on Monday (`getDay() = 1`), at any hour — the hour is
not part of the weekly gate. -/
theorem weekly_eligibility (now : Tick) :
    isEligible "weekly" now = true ↔ now.day = 1 := by
  simp [isEligible, shouldSkipFrequency]

/-- Claim C7: `getMessages` returns exactly the messages of the given
conversation, in non-decreasing send-timestamp order, for every storage
state (hence for every insertion order). -/
theorem getMessages_ledger_ordering (st : MemStorage) (conversationId : Nat) :
    (∀ m, m ∈ getMessages st conversationId ↔
      m ∈ st.messages ∧ m.conversationId = conversationId) ∧
    (getMessages st conversationId).Pairwise (fun a b => a.sentAt ≤ b.sentAt) := by
  constructor
  · intro m
    rw [getMessages, (sortBySentAt_perm _).mem_iff, List.mem_filter]
    simp
  · exact sortBySentAt_sorted _


theorem processPersona_master (env : Env) (now : Tick) (st : MemStorage) (p : Persona) :
    Event.attempted p.id ∈ eventsOf (processPersona env now st p) ∧
    (∀ e ∈ eventsOf (processPersona env now st p),
      e = Event.attempted p.id ∨ eventOwner p e) ∧
    ((stateOf (processPersona env now st p)).users = st.users ∨
     (stateOf (processPersona env now st p)).users =
       (incrementApiUsage st p.userId).users) ∧
    persists now.time st (stateOf (processPersona env now st p)) := by
  unfold processPersona
  cases hskip : shouldSkipFrequency p.messageFrequency now
  case true =>
    refine ⟨List.mem_singleton_self _, ?_, Or.inl rfl, persists_refl _ _⟩
    intro e he
    exact Or.inl (List.mem_singleton.1 he)
  case false =>
    dsimp only
    cases hconv : getConversationByPersona st p.id with
    | some c =>
        dsimp only
        obtain ⟨h1, h2, h3, h4⟩ :=
          processPersonaPipeline_master env now p st c [Event.attempted p.id]
        exact ⟨h1 _ (List.mem_singleton_self _),
          fun e he => (h2 e he).imp (fun hh => List.mem_singleton.1 hh) id, h3, h4⟩
    | none =>
        dsimp only
        obtain ⟨h1, h2, h3, h4⟩ := processPersonaPipeline_master env now p
          (createConversation st { userId := p.userId, personaId := p.id } now.time).1
          (createConversation st { userId := p.userId, personaId := p.id } now.time).2
          [Event.attempted p.id]
        exact ⟨h1 _ (List.mem_singleton_self _),
          fun e he => (h2 e he).imp (fun hh => List.mem_singleton.1 hh) id,
          h3, persists_trans (persists_createConversation _ _ _ _) h4⟩

theorem events_mono (env : Env) (now : Tick) (ps : List Persona)
    (acc : MemStorage × List Event) :
    ∀ e ∈ acc.2, e ∈ (ps.foldl (tickStep env now) acc).2 := by
  induction ps generalizing acc with
  | nil => intro e he; exact he
  | cons p ps ih =>
      intro e he
      simp only [List.foldl_cons]
      apply ih
      rw [tickStep_eq]
      exact List.mem_append_left _ he

theorem attempted_mem_foldl (env : Env) (now : Tick) (ps : List Persona)
    (acc : MemStorage × List Event) (q : Persona) (hq : q ∈ ps) :
    Event.attempted q.id ∈ (ps.foldl (tickStep env now) acc).2 := by
  induction ps generalizing acc with
  | nil => cases hq
  | cons p ps ih =>
      simp only [List.foldl_cons]
      rcases List.mem_cons.1 hq with rfl | hmem
      · apply events_mono
        rw [tickStep_eq]
        exact List.mem_append_right _ ((processPersona_master env now acc.1 q).1)
      · exact ih _ hmem

theorem attempted_mem_runTick (env : Env) (now : Tick) (st : MemStorage)
    (ps : List Persona) (q : Persona) (hq : q ∈ ps) :
    Event.attempted q.id ∈ (runTick env now st ps).2 :=
  attempted_mem_foldl env now ps (st, []) q hq

theorem persists_tickStep (env : Env) (now : Tick)
    (acc : MemStorage × List Event) (p : Persona) :
    persists now.time acc.1 (tickStep env now acc p).1 := by
  rw [tickStep_eq]
  exact (processPersona_master env now acc.1 p).2.2.2

theorem persists_foldl (env : Env) (now : Tick) (ps : List Persona)
    (acc : MemStorage × List Event) :
    persists now.time acc.1 ((ps.foldl (tickStep env now) acc)).1 := by
  induction ps generalizing acc with
  | nil => exact persists_refl _ _
  | cons p ps ih =>
      simp only [List.foldl_cons]
      exact persists_trans (persists_tickStep env now acc p) (ih _)

/-- Claim C1: failure isolation of the dispatch tick.  If persona `p`'s
pipeline throws at its position in the tick, the tick still processes every
other persona of the list (each is attempted), and all side effects present
after any prefix of the tick — messages appended, usage increments,
conversation updates — persist into the tick's final state. -/
theorem tick_failure_isolation (env : Env) (now : Tick) (st : MemStorage)
    (l1 l2 : List Persona) (p : Persona)
    (herr : (processPersona env now (runTick env now st l1).1 p).isOk = false) :
    (∀ q ∈ l1 ++ l2, Event.attempted q.id ∈ (runTick env now st (l1 ++ p :: l2)).2) ∧
    (∀ l', l' <+: l1 ++ p :: l2 →
      persists now.time (runTick env now st l').1
        (runTick env now st (l1 ++ p :: l2)).1) := by
  constructor
  · intro q hql
    apply attempted_mem_runTick
    rcases List.mem_append.1 hql with h | h
    · exact List.mem_append_left _ h
    · exact List.mem_append_right _ (List.mem_cons_of_mem _ h)
  · intro l' hpre
    obtain ⟨rest, hrest⟩ := hpre
    rw [← hrest]
    unfold runTick
    rw [List.foldl_append]
    exact persists_foldl env now rest _

def failingPersona : Persona :=
  { id := 5, userId := 50, name := "Fay", tagline := "f", interests := [],
    traits := ⟨5, 5, 5, 5⟩, isActive := true, messageFrequency := "often",
    whatsappEnabled := false, whatsappNumber := none }

def survivorPersona : Persona :=
  { id := 6, userId := 50, name := "Sam", tagline := "s", interests := [],
    traits := ⟨5, 5, 5, 5⟩, isActive := true, messageFrequency := "often",
    whatsappEnabled := false, whatsappNumber := none }

def isolationUser : User := { id := 50, apiUsage := 0, usageLimit := 100 }

def isolationStore : MemStorage :=
  { users := [isolationUser], personas := [failingPersona, survivorPersona],
    conversations := [], messages := [], conversationCurrentId := 1,
    messageCurrentId := 1 }

/-- An environment in which the generation call rejects for persona 5 and
succeeds for everyone else. -/
def failingEnv : Env :=
  { gen := fun pid => if pid = 5 then .error "boom" else .ok "hello",
    voice := fun _ => .ok none, relay := fun _ => .ok false,
    incrUsage := fun _ => .ok () }

theorem tick_failure_isolation_witness :
    ((processPersona failingEnv ⟨1, 9, 3⟩
        (runTick failingEnv ⟨1, 9, 3⟩ isolationStore []).1 failingPersona).isOk = false) ∧
    ((∀ q ∈ ([] : List Persona) ++ [survivorPersona],
        Event.attempted q.id ∈
          (runTick failingEnv ⟨1, 9, 3⟩ isolationStore
            ([] ++ failingPersona :: [survivorPersona])).2) ∧
     (∀ l', l' <+: [] ++ failingPersona :: [survivorPersona] →
        persists (3 : Nat) (runTick failingEnv ⟨1, 9, 3⟩ isolationStore l').1
          (runTick failingEnv ⟨1, 9, 3⟩ isolationStore
            ([] ++ failingPersona :: [survivorPersona])).1)) :=
  ⟨by decide,
   tick_failure_isolation failingEnv ⟨1, 9, 3⟩ isolationStore []
     [survivorPersona] failingPersona (by decide)⟩

/-- Whether an event concerns the given user id: generation calls and
message creations are the user-scoped effects of the pipeline. -/
def eventTouchesUser (uid : Nat) : Event → Bool
  | .genCall _ w => w == uid
  | .msgCreated _ w _ => w == uid
  | _ => false

theorem find?_user_map_increment (l : List User) (uid v : Nat) (h : uid ≠ v) :
    (l.map (fun w => if w.id == uid then { w with apiUsage := w.apiUsage + 1 }
        else w)).find? (fun w => w.id == v) =
      l.find? (fun w => w.id == v) := by
  induction l with
  | nil => rfl
  | cons x xs ih =>
      simp only [List.map_cons]
      by_cases hxu : x.id = uid
      · have hxv : ¬ ((x.id == v) = true) := by
          simp only [beq_iff_eq]
          intro hh
          exact h (hxu ▸ hh)
        rw [if_pos (by simp [hxu])]
        rw [List.find?_cons_of_neg (p := fun (w : User) => w.id == v)
            (a := { x with apiUsage := x.apiUsage + 1 }) _ hxv,
          List.find?_cons_of_neg (p := fun (w : User) => w.id == v) _ hxv]
        exact ih
      · rw [if_neg (by simp [hxu])]
        by_cases hxv : x.id = v
        · rw [List.find?_cons_of_pos _ (by simp [hxv]),
            List.find?_cons_of_pos _ (by simp [hxv])]
        · rw [List.find?_cons_of_neg _ (by simp [hxv]),
            List.find?_cons_of_neg _ (by simp [hxv])]
          exact ih

theorem getUser_incrementApiUsage_ne (st : MemStorage) (uid v : Nat)
    (h : uid ≠ v) : getUser (incrementApiUsage st uid) v = getUser st v := by
  unfold getUser incrementApiUsage
  exact find?_user_map_increment st.users uid v h

theorem processPersona_getUser_ne (env : Env) (now : Tick) (st : MemStorage)
    (p : Persona) (v : Nat) (h : p.userId ≠ v) :
    getUser (stateOf (processPersona env now st p)) v = getUser st v := by
  rcases (processPersona_master env now st p).2.2.1 with hu | hu
  · exact getUser_congr _ _ _ hu
  · rw [getUser_congr _ (incrementApiUsage st p.userId) v hu]
    exact getUser_incrementApiUsage_ne st p.userId v h

theorem processPersonaPipeline_quota_skip (env : Env) (now : Tick)
    (p : Persona) (st1 : MemStorage) (conv : Conversation) (ev0 : List Event)
    (u : User) (hu : getUser st1 p.userId = some u)
    (hq : u.usageLimit ≤ u.apiUsage) :
    processPersonaPipeline env now p st1 conv ev0 = .ok (st1, ev0) := by
  unfold processPersonaPipeline
  rw [hu]
  dsimp only
  rw [if_pos hq]

theorem processPersona_quota_skip (env : Env) (now : Tick) (st : MemStorage)
    (p : Persona) (u : User) (hu : getUser st p.userId = some u)
    (hq : u.usageLimit ≤ u.apiUsage) :
    ∃ st', processPersona env now st p = .ok (st', [Event.attempted p.id]) ∧
      st'.users = st.users ∧ st'.messages = st.messages := by
  unfold processPersona
  cases hskip : shouldSkipFrequency p.messageFrequency now
  case true =>
    refine ⟨st, ?_, rfl, rfl⟩
    simp
  case false =>
    simp only [Bool.false_eq_true, if_false]
    cases hconv : getConversationByPersona st p.id with
    | some c =>
        refine ⟨st, ?_, rfl, rfl⟩
        dsimp only
        exact processPersonaPipeline_quota_skip env now p st c _ u hu hq
    | none =>
        refine ⟨(createConversation st { userId := p.userId, personaId := p.id }
          now.time).1, ?_, rfl, rfl⟩
        dsimp only
        refine processPersonaPipeline_quota_skip env now p _ _ _ u ?_ hq
        exact (getUser_congr _ st p.userId rfl).trans hu

theorem quota_gate_aux (env : Env) (now : Tick) (u : User)
    (hq : u.usageLimit ≤ u.apiUsage) (ps : List Persona) :
    ∀ acc : MemStorage × List Event,
      getUser acc.1 u.id = some u →
      (∀ e ∈ acc.2, eventTouchesUser u.id e = false) →
      getUser (ps.foldl (tickStep env now) acc).1 u.id = some u ∧
      ∀ e ∈ (ps.foldl (tickStep env now) acc).2,
        eventTouchesUser u.id e = false := by
  induction ps with
  | nil => intro acc h1 h2; exact ⟨h1, h2⟩
  | cons p ps ih =>
      intro acc h1 h2
      simp only [List.foldl_cons]
      apply ih
      · by_cases hp : p.userId = u.id
        · obtain ⟨st', heq, hus, _⟩ :=
            processPersona_quota_skip env now acc.1 p u (by rw [hp]; exact h1) hq
          rw [tickStep_eq, heq]
          dsimp [stateOf]
          rw [getUser_congr _ _ _ hus]
          exact h1
        · rw [tickStep_eq]
          dsimp only
          rw [processPersona_getUser_ne env now acc.1 p u.id hp]
          exact h1
      · intro e he
        rw [tickStep_eq] at he
        rcases List.mem_append.1 he with hmem | hmem
        · exact h2 e hmem
        · by_cases hp : p.userId = u.id
          · obtain ⟨st', heq, _, _⟩ :=
              processPersona_quota_skip env now acc.1 p u (by rw [hp]; exact h1) hq
            rw [heq] at hmem
            dsimp [eventsOf] at hmem
            rcases List.mem_singleton.1 hmem with rfl
            rfl
          · rcases (processPersona_master env now acc.1 p).2.1 e hmem with hatt | howner
            · subst hatt; rfl
            · cases e with
              | attempted i => rfl
              | genCall i w =>
                  simp only [eventTouchesUser, beq_eq_false_iff_ne]
                  rw [howner.2]
                  exact hp
              | voiceCall i => rfl
              | msgCreated i w m =>
                  simp only [eventTouchesUser, beq_eq_false_iff_ne]
                  rw [howner.2]
                  exact hp
              | relayCall i => rfl

/-- Claim C2: quota gate.  If a user is at or over their usage limit at the
start of a tick, then after the tick their stored record is unchanged (in
particular `apiUsage`), no generation call and no message creation occurred
for that user, every persona was still attempted, and a quota-blocked
persona's pipeline completes without error, appending no message and
leaving all users untouched. -/
theorem quota_gate (env : Env) (now : Tick) (st : MemStorage)
    (personas : List Persona) (u : User)
    (hu : getUser st u.id = some u) (hq : u.usageLimit ≤ u.apiUsage) :
    getUser (runTick env now st personas).1 u.id = some u ∧
    (∀ e ∈ (runTick env now st personas).2, eventTouchesUser u.id e = false) ∧
    (∀ p ∈ personas, Event.attempted p.id ∈ (runTick env now st personas).2) ∧
    (∀ p st', p.userId = u.id → getUser st' u.id = some u →
      (processPersona env now st' p).isOk = true ∧
      (stateOf (processPersona env now st' p)).messages = st'.messages ∧
      (stateOf (processPersona env now st' p)).users = st'.users) := by
  obtain ⟨h1, h2⟩ := quota_gate_aux env now u hq personas (st, []) hu
    (fun e he => absurd he (List.not_mem_nil e))
  refine ⟨h1, h2, fun p hp => attempted_mem_runTick env now st personas p hp,
    fun p st' hpu hu' => ?_⟩
  obtain ⟨st'', heq, hus, hmsg⟩ :=
    processPersona_quota_skip env now st' p u (by rw [hpu]; exact hu') hq
  rw [heq]
  exact ⟨rfl, hmsg, hus⟩

def blockedUser : User := { id := 30, apiUsage := 100, usageLimit := 100 }

def otherUser : User := { id := 31, apiUsage := 0, usageLimit := 100 }

def blockedPersona : Persona :=
  { id := 7, userId := 30, name := "Bea", tagline := "b", interests := ["AI"],
    traits := ⟨5, 5, 5, 5⟩, isActive := true, messageFrequency := "often",
    whatsappEnabled := false, whatsappNumber := none }

def freePersona : Persona :=
  { id := 8, userId := 31, name := "Fred", tagline := "f", interests := [],
    traits := ⟨5, 5, 5, 5⟩, isActive := true, messageFrequency := "often",
    whatsappEnabled := false, whatsappNumber := none }

def quotaStore : MemStorage :=
  { users := [blockedUser, otherUser],
    personas := [blockedPersona, freePersona], conversations := [],
    messages := [], conversationCurrentId := 1, messageCurrentId := 1 }

theorem quota_gate_witness :
    (getUser quotaStore blockedUser.id = some blockedUser ∧
     blockedUser.usageLimit ≤ blockedUser.apiUsage) ∧
    (getUser (runTick plainEnv ⟨2, 9, 4⟩ quotaStore
        [blockedPersona, freePersona]).1 blockedUser.id = some blockedUser ∧
     (∀ e ∈ (runTick plainEnv ⟨2, 9, 4⟩ quotaStore
        [blockedPersona, freePersona]).2,
        eventTouchesUser blockedUser.id e = false) ∧
     (∀ p ∈ [blockedPersona, freePersona], Event.attempted p.id ∈
        (runTick plainEnv ⟨2, 9, 4⟩ quotaStore [blockedPersona, freePersona]).2) ∧
     (∀ p st', p.userId = blockedUser.id →
        getUser st' blockedUser.id = some blockedUser →
        (processPersona plainEnv ⟨2, 9, 4⟩ st' p).isOk = true ∧
        (stateOf (processPersona plainEnv ⟨2, 9, 4⟩ st' p)).messages = st'.messages ∧
        (stateOf (processPersona plainEnv ⟨2, 9, 4⟩ st' p)).users = st'.users)) :=
  ⟨⟨by decide, by decide⟩,
   quota_gate plainEnv ⟨2, 9, 4⟩ quotaStore [blockedPersona, freePersona]
     blockedUser (by decide) (by decide)⟩

/-- Claim C10: a quota-blocked persona still gets a Conversation.  For an
eligible persona whose owner is at quota and which has no conversation yet,
the pipeline completes without error having created exactly the new
conversation (stamped with the tick time) and changed nothing else: users,
messages and the message id counter are untouched, and existing
conversations are carried over unchanged. -/
theorem quota_blocked_conversation_created (env : Env) (now : Tick)
    (st : MemStorage) (p : Persona) (u : User)
    (helig : shouldSkipFrequency p.messageFrequency now = false)
    (hconv : getConversationByPersona st p.id = none)
    (hu : getUser st p.userId = some u)
    (hq : u.usageLimit ≤ u.apiUsage) :
    processPersona env now st p = .ok
      ({ st with
          conversations := st.conversations ++
            [{ id := st.conversationCurrentId, userId := p.userId,
               personaId := p.id, lastMessageAt := now.time,
               createdAt := now.time }],
          conversationCurrentId := st.conversationCurrentId + 1 },
        [Event.attempted p.id]) := by
  unfold processPersona
  rw [helig]
  simp only [Bool.false_eq_true, if_false]
  rw [hconv]
  dsimp only
  refine (processPersonaPipeline_quota_skip env now p _ _ _ u ?_ hq).trans ?_
  · exact (getUser_congr _ st p.userId rfl).trans hu
  · rfl

theorem quota_blocked_conversation_created_witness :
    (shouldSkipFrequency blockedPersona.messageFrequency ⟨2, 9, 4⟩ = false ∧
     getConversationByPersona quotaStore blockedPersona.id = none ∧
     getUser quotaStore blockedPersona.userId = some blockedUser ∧
     blockedUser.usageLimit ≤ blockedUser.apiUsage) ∧
    processPersona plainEnv ⟨2, 9, 4⟩ quotaStore blockedPersona = .ok
      ({ quotaStore with
          conversations := quotaStore.conversations ++
            [{ id := quotaStore.conversationCurrentId,
               userId := blockedPersona.userId,
               personaId := blockedPersona.id, lastMessageAt := (4 : Nat),
               createdAt := (4 : Nat) }],
          conversationCurrentId := quotaStore.conversationCurrentId + 1 },
        [Event.attempted blockedPersona.id]) :=
  ⟨⟨by decide, by decide, by decide, by decide⟩,
   quota_blocked_conversation_created plainEnv ⟨2, 9, 4⟩ quotaStore
     blockedPersona blockedUser (by decide) (by decide) (by decide) (by decide)⟩


theorem messages_updateConversationLastMessage (st : MemStorage) (i t : Nat) :
    (updateConversationLastMessage st i t).messages = st.messages := by
  unfold updateConversationLastMessage; split <;> rfl

theorem find?_append_fresh (l : List Message) (m0 : Message)
    (hwf : ∀ m ∈ l, m.id ≠ m0.id) :
    (l ++ [m0]).find? (fun m => m.id == m0.id) = some m0 := by
  induction l with
  | nil => simp [List.find?]
  | cons x xs ih =>
      have hid : ¬ ((x.id == m0.id) = true) := by
        simp only [beq_iff_eq]
        exact hwf x (List.mem_cons_self x xs)
      rw [List.cons_append,
        List.find?_cons_of_neg (p := fun (m : Message) => m.id == m0.id) _ hid]
      exact ih (fun m hm => hwf m (List.mem_cons_of_mem _ hm))

theorem map_status_append_fresh (l : List Message) (m0 : Message) (s : String)
    (hwf : ∀ m ∈ l, m.id ≠ m0.id) :
    (l ++ [m0]).map
        (fun m => if m.id == m0.id then { m with deliveryStatus := s } else m) =
      l ++ [{ m0 with deliveryStatus := s }] := by
  rw [List.map_append]
  congr 1
  · conv_rhs => rw [← List.map_id l]
    exact List.map_congr_left (fun x hx => by simp [hwf x hx])
  · simp

/-- The happy path of the pipeline with the relay branch taken: message
appended with in-app tag, relay invoked exactly once, status escalated to
delivered exactly when the relay reports success. -/
theorem messages_updateMessageStatus_fresh (stX : MemStorage)
    (l : List Message) (m0 : Message) (s : String)
    (hmsg : stX.messages = l ++ [m0]) (hwf : ∀ m ∈ l, m.id ≠ m0.id) :
    (updateMessageStatus stX m0.id s).messages =
      l ++ [{ m0 with deliveryStatus := s }] := by
  unfold updateMessageStatus
  rw [hmsg, find?_append_fresh l m0 hwf]
  dsimp only
  exact map_status_append_fresh l m0 s hwf

theorem processPersonaPipeline_relay (env : Env) (now : Tick) (p : Persona)
    (st1 : MemStorage) (conv : Conversation) (ev0 : List Event) (u : User)
    (g : String) (v : Option VoiceData) (b : Bool)
    (hu : getUser st1 p.userId = some u)
    (hq : u.apiUsage < u.usageLimit)
    (hgen : env.gen p.id = .ok g)
    (hincr : env.incrUsage p.userId = .ok ())
    (hvoice : env.voice p.id = .ok v)
    (hwa : (p.whatsappEnabled && truthyString p.whatsappNumber) = true)
    (hrelay : env.relay p.id = .ok b)
    (hwf : ∀ m ∈ st1.messages, m.id ≠ st1.messageCurrentId) :
    ∃ st', processPersonaPipeline env now p st1 conv ev0 = .ok (st',
        ((ev0 ++ [Event.genCall p.id p.userId]) ++ [Event.voiceCall p.id] ++
          [Event.msgCreated p.id p.userId st1.messageCurrentId]) ++
          [Event.relayCall p.id]) ∧
      st'.messages = st1.messages ++
        [{ id := st1.messageCurrentId, conversationId := conv.id, content := g,
           isFromPersona := true,
           deliveryStatus := if b then "delivered" else "sent",
           deliveredVia := "in-app", hasVoice := v.isSome,
           voiceUrl := v.map VoiceData.filePath,
           voiceDuration := v.map VoiceData.duration, sentAt := now.time }] := by
  unfold processPersonaPipeline
  rw [hu]
  dsimp only
  rw [if_neg (not_le.2 hq), hgen]
  dsimp only
  rw [hincr]
  dsimp only
  rw [hvoice]
  dsimp only
  rw [if_pos hwa, hrelay]
  dsimp only
  cases b with
  | false =>
      refine ⟨_, rfl, ?_⟩
      rw [messages_updateConversationLastMessage]
      simp [createMessage, jsOrString, incrementApiUsage]
  | true =>
      refine ⟨_, rfl, ?_⟩
      rw [messages_updateMessageStatus_fresh _ st1.messages _ "delivered"
        (by rw [messages_updateConversationLastMessage]; rfl) hwf]
      simp [createMessage, jsOrString, incrementApiUsage]

/-- Claim C5 counterexample: a persona with WhatsApp enabled and a number
present, relay succeeding — the stored message ends with delivery status
`delivered` but channel tag still `in-app`, never `out-of-band`
(`whatsapp`): `updateMessageStatus` changes only the status field. -/
def relayPersona : Persona :=
  { id := 9, userId := 40, name := "Rio", tagline := "r", interests := [],
    traits := ⟨5, 5, 5, 5⟩, isActive := true, messageFrequency := "often",
    whatsappEnabled := true, whatsappNumber := some "15551234" }

def relayUser : User := { id := 40, apiUsage := 0, usageLimit := 100 }

def relayStore : MemStorage :=
  { users := [relayUser], personas := [relayPersona], conversations := [],
    messages := [], conversationCurrentId := 1, messageCurrentId := 1 }

def relayEnv : Env :=
  { gen := fun _ => .ok "msg", voice := fun _ => .ok none,
    relay := fun _ => .ok true, incrUsage := fun _ => .ok () }

theorem relay_channel_tag_cex :
    ((stateOf (processPersona relayEnv ⟨2, 9, 6⟩ relayStore relayPersona)).messages.map
        (fun m => (m.deliveryStatus, m.deliveredVia)) = [("delivered", "in-app")]) ∧
    "in-app" ≠ "out-of-band" ∧ "in-app" ≠ "whatsapp" := by
  decide

/-- Claim C5 (amended): with out-of-band delivery enabled and an address
present, the relay is invoked exactly once; on success the message's
delivery status is escalated to `delivered` while its channel tag remains
`in-app`; on failure the status stays `sent` with the same `in-app` tag. -/
theorem relay_status_escalation (env : Env) (now : Tick) (st : MemStorage)
    (p : Persona) (u : User) (g : String) (v : Option VoiceData) (b : Bool)
    (helig : shouldSkipFrequency p.messageFrequency now = false)
    (hu : getUser st p.userId = some u)
    (hq : u.apiUsage < u.usageLimit)
    (hgen : env.gen p.id = .ok g)
    (hincr : env.incrUsage p.userId = .ok ())
    (hvoice : env.voice p.id = .ok v)
    (hwa : (p.whatsappEnabled && truthyString p.whatsappNumber) = true)
    (hrelay : env.relay p.id = .ok b)
    (hwf : ∀ m ∈ st.messages, m.id ≠ st.messageCurrentId) :
    ∃ st' ev cid, processPersona env now st p = .ok (st', ev) ∧
      st'.messages = st.messages ++
        [{ id := st.messageCurrentId, conversationId := cid, content := g,
           isFromPersona := true,
           deliveryStatus := if b then "delivered" else "sent",
           deliveredVia := "in-app", hasVoice := v.isSome,
           voiceUrl := v.map VoiceData.filePath,
           voiceDuration := v.map VoiceData.duration, sentAt := now.time }] ∧
      ev.count (Event.relayCall p.id) = 1 := by
  unfold processPersona
  rw [helig]
  simp only [Bool.false_eq_true, if_false]
  cases hconv : getConversationByPersona st p.id with
  | some c =>
      dsimp only
      obtain ⟨st', heq, hmsg⟩ := processPersonaPipeline_relay env now p st c
        [Event.attempted p.id] u g v b hu hq hgen hincr hvoice hwa hrelay hwf
      refine ⟨st', _, c.id, heq, hmsg, ?_⟩
      simp [List.count_append, List.count_cons, List.count_nil]
  | none =>
      dsimp only
      obtain ⟨st', heq, hmsg⟩ := processPersonaPipeline_relay env now p
        (createConversation st { userId := p.userId, personaId := p.id } now.time).1
        (createConversation st { userId := p.userId, personaId := p.id } now.time).2
        [Event.attempted p.id] u g v b
        ((getUser_congr _ st p.userId rfl).trans hu) hq hgen hincr hvoice hwa hrelay hwf
      refine ⟨st',
        _, (createConversation st { userId := p.userId, personaId := p.id } now.time).2.id,
        heq, hmsg, ?_⟩
      simp [List.count_append, List.count_cons, List.count_nil]

theorem relay_status_escalation_witness :
    (shouldSkipFrequency relayPersona.messageFrequency ⟨2, 9, 6⟩ = false ∧
     getUser relayStore relayPersona.userId = some relayUser ∧
     relayUser.apiUsage < relayUser.usageLimit ∧
     relayEnv.gen relayPersona.id = .ok "msg" ∧
     relayEnv.incrUsage relayPersona.userId = .ok () ∧
     relayEnv.voice relayPersona.id = .ok none ∧
     (relayPersona.whatsappEnabled && truthyString relayPersona.whatsappNumber) = true ∧
     relayEnv.relay relayPersona.id = .ok true ∧
     (∀ m ∈ relayStore.messages, m.id ≠ relayStore.messageCurrentId)) ∧
    (∃ st' ev cid, processPersona relayEnv ⟨2, 9, 6⟩ relayStore relayPersona = .ok (st', ev) ∧
      st'.messages = relayStore.messages ++
        [{ id := relayStore.messageCurrentId, conversationId := cid, content := "msg",
           isFromPersona := true,
           deliveryStatus := if true then "delivered" else "sent",
           deliveredVia := "in-app", hasVoice := false,
           voiceUrl := none, voiceDuration := none, sentAt := 6 }] ∧
      ev.count (Event.relayCall relayPersona.id) = 1) :=
  ⟨⟨by decide, by decide, by decide, rfl, rfl, rfl, by decide, rfl, by decide⟩,
   relay_status_escalation relayEnv ⟨2, 9, 6⟩ relayStore relayPersona relayUser
     "msg" none true (by decide) (by decide) (by decide) rfl rfl rfl
     (by decide) rfl (by decide)⟩

/-- The happy path of the pipeline up to message creation, with the relay
outcome arbitrary (skipped, failed, succeeded, or rejected): exactly one
message is appended and its voice-metadata fields mirror the voice
synthesis result. -/
theorem processPersonaPipeline_voice (env : Env) (now : Tick) (p : Persona)
    (st1 : MemStorage) (conv : Conversation) (ev0 : List Event) (u : User)
    (g : String) (v : Option VoiceData)
    (hu : getUser st1 p.userId = some u)
    (hq : u.apiUsage < u.usageLimit)
    (hgen : env.gen p.id = .ok g)
    (hincr : env.incrUsage p.userId = .ok ())
    (hvoice : env.voice p.id = .ok v)
    (hwf : ∀ m ∈ st1.messages, m.id ≠ st1.messageCurrentId) :
    ∃ m, (stateOf (processPersonaPipeline env now p st1 conv ev0)).messages =
        st1.messages ++ [m] ∧
      m.hasVoice = v.isSome ∧ m.voiceUrl = v.map VoiceData.filePath ∧
      m.voiceDuration = v.map VoiceData.duration := by
  unfold processPersonaPipeline
  rw [hu]
  dsimp only
  rw [if_neg (not_le.2 hq), hgen]
  dsimp only
  rw [hincr]
  dsimp only
  rw [hvoice]
  dsimp only
  by_cases hwa : (p.whatsappEnabled && truthyString p.whatsappNumber) = true
  · rw [if_pos hwa]
    cases hrelay : env.relay p.id with
    | error e =>
        dsimp only
        refine ⟨⟨st1.messageCurrentId, conv.id, g, true, "sent", "in-app",
          v.isSome, v.map VoiceData.filePath, v.map VoiceData.duration,
          now.time⟩, ?_, rfl, rfl, rfl⟩
        dsimp [stateOf]
        rw [messages_updateConversationLastMessage]
        simp [createMessage, jsOrString, incrementApiUsage]
    | ok whatsappSent =>
        dsimp only
        cases whatsappSent with
        | true =>
            rw [if_pos rfl]
            refine ⟨⟨st1.messageCurrentId, conv.id, g, true, "delivered", "in-app",
              v.isSome, v.map VoiceData.filePath, v.map VoiceData.duration,
              now.time⟩, ?_, rfl, rfl, rfl⟩
            dsimp [stateOf]
            rw [messages_updateMessageStatus_fresh _ st1.messages _ "delivered"
              (by rw [messages_updateConversationLastMessage]; rfl) hwf]
            simp [createMessage, jsOrString, incrementApiUsage]
        | false =>
            rw [if_neg (by simp)]
            refine ⟨⟨st1.messageCurrentId, conv.id, g, true, "sent", "in-app",
              v.isSome, v.map VoiceData.filePath, v.map VoiceData.duration,
              now.time⟩, ?_, rfl, rfl, rfl⟩
            dsimp [stateOf]
            rw [messages_updateConversationLastMessage]
            simp [createMessage, jsOrString, incrementApiUsage]
  · rw [if_neg hwa]
    refine ⟨⟨st1.messageCurrentId, conv.id, g, true, "sent", "in-app",
      v.isSome, v.map VoiceData.filePath, v.map VoiceData.duration,
      now.time⟩, ?_, rfl, rfl, rfl⟩
    dsimp [stateOf]
    rw [messages_updateConversationLastMessage]
    simp [createMessage, jsOrString, incrementApiUsage]

/-- Claim C6: voice optionality.  For an eligible, non-quota-blocked
persona whose generation and usage increment succeed, exactly one message
is appended whether voice synthesis produced data or nothing, and on that
message the voice-metadata triple is jointly absent or jointly present. -/
theorem voice_optionality (env : Env) (now : Tick) (st : MemStorage)
    (p : Persona) (u : User) (g : String) (v : Option VoiceData)
    (helig : shouldSkipFrequency p.messageFrequency now = false)
    (hu : getUser st p.userId = some u)
    (hq : u.apiUsage < u.usageLimit)
    (hgen : env.gen p.id = .ok g)
    (hincr : env.incrUsage p.userId = .ok ())
    (hvoice : env.voice p.id = .ok v)
    (hwf : ∀ m ∈ st.messages, m.id ≠ st.messageCurrentId) :
    ∃ m, (stateOf (processPersona env now st p)).messages = st.messages ++ [m] ∧
      m.hasVoice = v.isSome ∧ m.voiceUrl = v.map VoiceData.filePath ∧
      m.voiceDuration = v.map VoiceData.duration ∧
      ((m.hasVoice = false ∧ m.voiceUrl = none ∧ m.voiceDuration = none) ∨
       (m.hasVoice = true ∧ m.voiceUrl.isSome = true ∧
        m.voiceDuration.isSome = true)) := by
  have hjoint : ∀ m : Message, m.hasVoice = v.isSome →
      m.voiceUrl = v.map VoiceData.filePath →
      m.voiceDuration = v.map VoiceData.duration →
      ((m.hasVoice = false ∧ m.voiceUrl = none ∧ m.voiceDuration = none) ∨
       (m.hasVoice = true ∧ m.voiceUrl.isSome = true ∧
        m.voiceDuration.isSome = true)) := by
    intro m h1 h2 h3
    cases v with
    | none => exact Or.inl ⟨h1, h2, h3⟩
    | some vd => exact Or.inr ⟨h1, by rw [h2]; rfl, by rw [h3]; rfl⟩
  unfold processPersona
  rw [helig]
  simp only [Bool.false_eq_true, if_false]
  cases hconv : getConversationByPersona st p.id with
  | some c =>
      dsimp only
      obtain ⟨m, hm, h1, h2, h3⟩ := processPersonaPipeline_voice env now p st c
        [Event.attempted p.id] u g v hu hq hgen hincr hvoice hwf
      exact ⟨m, hm, h1, h2, h3, hjoint m h1 h2 h3⟩
  | none =>
      dsimp only
      obtain ⟨m, hm, h1, h2, h3⟩ := processPersonaPipeline_voice env now p
        (createConversation st { userId := p.userId, personaId := p.id } now.time).1
        (createConversation st { userId := p.userId, personaId := p.id } now.time).2
        [Event.attempted p.id] u g v
        ((getUser_congr _ st p.userId rfl).trans hu) hq hgen hincr hvoice hwf
      exact ⟨m, hm, h1, h2, h3, hjoint m h1 h2 h3⟩

def voicedEnv : Env :=
  { gen := fun _ => .ok "a voice note", relay := fun _ => .ok false,
    voice := fun _ => .ok (some ⟨"/voice-messages/persona-2-1.mp3", 2⟩),
    incrUsage := fun _ => .ok () }

theorem voice_optionality_witness :
    (shouldSkipFrequency weeklyPersona.messageFrequency ⟨1, 9, 8⟩ = false ∧
     getUser weeklyStore weeklyPersona.userId = some weeklyUser ∧
     weeklyUser.apiUsage < weeklyUser.usageLimit ∧
     voicedEnv.gen weeklyPersona.id = .ok "a voice note" ∧
     voicedEnv.incrUsage weeklyPersona.userId = .ok () ∧
     voicedEnv.voice weeklyPersona.id =
       .ok (some ⟨"/voice-messages/persona-2-1.mp3", 2⟩) ∧
     (∀ m ∈ weeklyStore.messages, m.id ≠ weeklyStore.messageCurrentId)) ∧
    (∃ m, (stateOf (processPersona voicedEnv ⟨1, 9, 8⟩ weeklyStore weeklyPersona)).messages =
        weeklyStore.messages ++ [m] ∧
      m.hasVoice = true ∧ m.voiceUrl = some "/voice-messages/persona-2-1.mp3" ∧
      m.voiceDuration = some 2 ∧
      ((m.hasVoice = false ∧ m.voiceUrl = none ∧ m.voiceDuration = none) ∨
       (m.hasVoice = true ∧ m.voiceUrl.isSome = true ∧
        m.voiceDuration.isSome = true))) :=
  ⟨⟨by decide, by decide, by decide, by rfl, by rfl, by rfl, by decide⟩,
   voice_optionality voicedEnv ⟨1, 9, 8⟩ weeklyStore weeklyPersona weeklyUser
     "a voice note" (some ⟨"/voice-messages/persona-2-1.mp3", 2⟩)
     (by decide) (by decide) (by decide) (by rfl) (by rfl) (by rfl) (by decide)⟩


def emptyStore : MemStorage :=
  { users := [], personas := [], conversations := [], messages := [],
    conversationCurrentId := 1, messageCurrentId := 1 }

def techPersona : Persona :=
  { id := 11, userId := 60, name := "Tess", tagline := "t",
    interests := ["Technology"], traits := ⟨5, 5, 5, 5⟩, isActive := true,
    messageFrequency := "often", whatsappEnabled := false,
    whatsappNumber := none }

def techStore : MemStorage :=
  { users := [], personas := [techPersona], conversations := [],
    messages := [], conversationCurrentId := 1, messageCurrentId := 1 }

/-- Claim C9: `generatePersonaMessage` is total — the outermost catch turns
every failure into a resolved string: the promise always resolves (`.ok`);
if the body threw, the resolved value is the canned apology; a missing
persona yields the canned apology; a missing API key yields the
interest-derived fallback text. -/
theorem generatePersonaMessage_total (st : MemStorage) (apiKey : Option String)
    (modelResult : Except ApiError (Option String)) (rand : Nat → Nat)
    (personaId : Nat) :
    ∃ s, generatePersonaMessage st apiKey modelResult rand personaId = .ok s ∧
      ((generatePersonaMessageBody st apiKey modelResult rand personaId).isOk = false →
        s = "I'm having trouble connecting right now. Let's chat later!") ∧
      (getPersona st personaId = none →
        s = "I'm having trouble connecting right now. Let's chat later!") ∧
      (∀ p, getPersona st personaId = some p → keyMissing apiKey = true →
        s = generateFallbackResponse p "" rand) := by
  unfold generatePersonaMessage
  cases hbody : generatePersonaMessageBody st apiKey modelResult rand personaId with
  | ok s =>
      refine ⟨s, rfl, ?_, ?_, ?_⟩
      · intro h
        simp [Except.isOk, Except.toBool, hbody] at h
      · intro hnone
        unfold generatePersonaMessageBody at hbody
        rw [hnone] at hbody
        cases hbody
      · intro p hp hkey
        unfold generatePersonaMessageBody at hbody
        rw [hp] at hbody
        dsimp only at hbody
        rw [hkey] at hbody
        simp at hbody
        exact hbody.symm
  | error e =>
      refine ⟨_, rfl, fun _ => rfl, fun _ => rfl, ?_⟩
      intro p hp hkey
      unfold generatePersonaMessageBody at hbody
      rw [hp] at hbody
      dsimp only at hbody
      rw [hkey] at hbody
      simp at hbody

theorem generatePersonaMessage_total_witness :
    (generatePersonaMessage emptyStore none (.error ⟨500, none⟩) (fun _ => 0) 1 =
      .ok "I'm having trouble connecting right now. Let's chat later!") ∧
    (generatePersonaMessage techStore none (.error ⟨500, none⟩) (fun _ => 0)
        techPersona.id =
      .ok (generateFallbackResponse techPersona "" (fun _ => 0))) := by
  constructor
  · obtain ⟨s, hs, _, hnone, _⟩ :=
      generatePersonaMessage_total emptyStore none (.error ⟨500, none⟩) (fun _ => 0) 1
    rw [hs, hnone (by decide)]
  · obtain ⟨s, hs, _, _, hkey⟩ :=
      generatePersonaMessage_total techStore none (.error ⟨500, none⟩)
        (fun _ => 0) techPersona.id
    rw [hs, hkey techPersona (by decide) (by decide)]

/-- Claim C8 counterexample: the fallback generation is not deterministic —
with the same persona profile and interest tags, two runs that draw
different `Math.random()` values return different template texts. -/
theorem fallback_not_deterministic_cex :
    generateFallbackResponse techPersona "" (fun _ => 0) ≠
      generateFallbackResponse techPersona "" (fun _ => 1) := by
  decide

/-- The closed template family the fallback draws from: the predefined
responses of each of the persona's interest tags, plus the generic
responses. -/
def fallbackTemplateFamily (p : Persona) : List String :=
  (p.interests.map (fun i => (interestResponses i).getD [])).flatten ++
    genericResponses

theorem getD_mem_of_lt (l : List String) (i : Nat) (d : String)
    (h : i < l.length) : l.getD i d ∈ l := by
  rw [List.getD_eq_getElem l d h]
  exact l.getElem_mem h

theorem jsPickIdx_lt (rand : Nat → Nat) (k len : Nat) (h : 0 < len) :
    jsPickIdx rand k len < len := by
  unfold jsPickIdx
  rw [if_neg (Nat.pos_iff_ne_zero.1 h)]
  exact Nat.mod_lt _ h

theorem jsIncludes_empty_sub (s : String) : jsIncludes s "" = true := by
  unfold jsIncludes listIncludes
  simp [List.isPrefixOf]

theorem interestResponses_nonempty (i : String) (rs : List String)
    (h : interestResponses i = some rs) : 0 < rs.length := by
  unfold interestResponses at h
  split_ifs at h <;>
    first
      | exact Option.noConfusion h
      | (injection h with hh; subst hh; decide)

theorem responses_subset_family (p : Persona) (i : String) (rs : List String)
    (hi : i ∈ p.interests) (hr : interestResponses i = some rs) :
    ∀ x ∈ rs, x ∈ fallbackTemplateFamily p := by
  intro x hx
  unfold fallbackTemplateFamily
  apply List.mem_append_left
  apply List.mem_flatten.2
  exact ⟨rs, List.mem_map.2 ⟨i, hi, by rw [hr]; rfl⟩, hx⟩

theorem fallbackTail_mem (p : Persona) (rand : Nat → Nat) (k : Nat) :
    fallbackTail p rand k ∈ fallbackTemplateFamily p := by
  unfold fallbackTail
  cases hf : p.interests.findSome? (fun interest =>
      match interestResponses interest with
      | some responses => if 0 < responses.length then some responses else none
      | none => none) with
  | none =>
      apply List.mem_append_right
      exact getD_mem_of_lt _ _ _ (jsPickIdx_lt rand k _ (by decide))
  | some rs =>
      obtain ⟨i, hi, hfi⟩ := List.exists_of_findSome?_eq_some hf
      cases hri : interestResponses i with
      | none => rw [hri] at hfi; cases hfi
      | some rs' =>
          rw [hri] at hfi
          dsimp only at hfi
          by_cases hlen : 0 < rs'.length
          · rw [if_pos hlen] at hfi
            have hh : rs' = rs := Option.some.inj hfi
            rw [← hh]
            exact responses_subset_family p i rs' hi hri _
              (getD_mem_of_lt _ _ _ (jsPickIdx_lt rand k _ hlen))
          · rw [if_neg hlen] at hfi; cases hfi

/-- Claim C8 (amended): in the dispatch path (empty user message) the
fallback text is always one of the fixed templates derived from the
persona's interest tags (or the generic templates); which template is
returned depends on the random draws, so the strategy is template-based but
not deterministic across draws. -/
theorem fallback_template_membership (p : Persona) (rand : Nat → Nat) :
    generateFallbackResponse p "" rand ∈ fallbackTemplateFamily p := by
  unfold generateFallbackResponse
  dsimp only
  have h1 : (jsIncludes (jsToLower "") "hello" ||
      jsIncludes (jsToLower "") "hi" ||
      jsIncludes (jsToLower "") "hey") = false := by decide
  have h2 : jsIncludes (jsToLower "") "how are you" = false := by decide
  have h3 : (jsIncludes (jsToLower "") "tell me about" ||
      jsIncludes (jsToLower "") "what do you think about") = false := by decide
  have h4 : jsSplitWs (jsToLower "") = [""] := by decide
  rw [h1]
  simp only [Bool.false_eq_true, if_false]
  rw [h2]
  simp only [Bool.false_eq_true, if_false]
  rw [h3]
  simp only [Bool.false_eq_true, if_false]
  rw [h4]
  have h5 : p.interests.filter (fun i =>
      [""].any (fun w => jsIncludes w (jsToLower i) ||
        jsIncludes (jsToLower i) w)) = p.interests := by
    apply List.filter_eq_self.2
    intro a _
    simp [List.any_cons, List.any_nil, jsIncludes_empty_sub]
  rw [h5]
  by_cases hlen : 0 < p.interests.length
  · rw [if_pos hlen]
    have hmem : jsAt p.interests (jsPickIdx rand 0 p.interests.length) ∈
        p.interests :=
      getD_mem_of_lt _ _ _ (jsPickIdx_lt rand 0 _ hlen)
    cases hri : interestResponses
        (jsAt p.interests (jsPickIdx rand 0 p.interests.length)) with
    | some rs =>
        exact responses_subset_family p _ rs hmem hri _
          (getD_mem_of_lt _ _ _
            (jsPickIdx_lt rand 1 _ (interestResponses_nonempty _ rs hri)))
    | none => exact fallbackTail_mem p rand 1
  · rw [if_neg hlen]
    exact fallbackTail_mem p rand 0

end PersonaForge
